import Mathlib

/-!
Verification of the replica lifecycle coordinator of the
`restinpieces-litestream` repository.

The development shallowly embeds the constructor-based variant of the
package (`NewLitestream(cfg Config, logger)` together with its `Start`
and `Stop` methods, `src/unnamed/part_006`, and the store-based
supervisor of `src/litestream.go`).  Filesystem effects
(`os.MkdirAll`, `filepath.Abs`) and the success of external task
starts (`replica.Start`, `store.Open`, `setup.NewDirectoryMonitor`)
are modelled as oracles supplied to the embedded functions; the
embedded functions additionally emit an explicit event trace so that
ordering properties (I/O before/after validation, teardown order,
shutdown signalling) can be stated.
-/

namespace LS

/-- Mirrors `ReplicaConfig` (src/unnamed/part_006, lines 1041-1058 /
820-837): one configured backup destination.  The Go field `Type` is
rendered `rtype` because `Type` is a Lean keyword; every other field
keeps its source name.  Defaults mirror Go zero values. -/
structure ReplicaConfig where
  Name : String := ""
  rtype : String := ""
  FilePath : String := ""
  S3Endpoint : String := ""
  S3Region : String := ""
  S3Bucket : String := ""
  S3Path : String := ""
  S3AccessKeyID : String := ""
  S3SecretAccessKey : String := ""
  S3ForcePathStyle : Bool := false
deriving Repr, DecidableEq

/-- Mirrors `Config` (src/unnamed/part_006, lines 1062-1065): the
database path plus the ordered replica list. -/
structure Config where
  DBPath : String := ""
  Replicas : List ReplicaConfig := []
deriving Repr, DecidableEq

/-- Outcome of the `os.MkdirAll` call: success, an error for which
`os.IsExist` holds (tolerated by the source), or any other error. -/
inductive MkdirResult where
  | ok
  | errExist
  | errOther (msg : String)
deriving Repr, DecidableEq

/-- Oracle for the filesystem operations the constructor performs:
`mkdirAll` models `os.MkdirAll(path, 0750)` and `abs` models
`filepath.Abs(path)` (`none` = the resolution failed). -/
structure FS where
  mkdirAll : String → MkdirResult
  abs : String → Option String

/-- Mirrors the concrete replica client built by the factory branch of
`NewLitestream`: `file.NewReplicaClient(absFilePath)` or a fully
parameterized `s3.NewReplicaClient()`. -/
inductive ReplicaClient where
  | file (path : String)
  | s3 (bucket path region endpoint accessKeyID secretAccessKey : String)
      (forcePathStyle : Bool)
deriving Repr, DecidableEq

/-- Mirrors `litestream.NewReplica(db, rc.Name)` with its `Client`
field set: the replica task handle bound into `db.Replicas`. -/
structure Replica where
  name : String
  client : ReplicaClient
deriving Repr, DecidableEq

/-- The error cases of `NewLitestream` (src/unnamed/part_006, lines
864-941), one constructor per `fmt.Errorf` site, carrying the data the
message interpolates. -/
inductive NewError where
  | noReplicas
  | emptyName (rtype : String)
  | fileMissingPath (name : String)
  | mkdirFailed (name path msg : String)
  | absFailed (name path : String)
  | s3MissingBucketRegion (name : String)
  | unsupportedType (rtype name : String)
deriving Repr, DecidableEq

/-- Spec error taxonomy (spec.md section 7): the `ValidationError`
class — malformed or inconsistent declarative configuration. -/
def isValidationError : NewError → Bool
  | .noReplicas => true
  | .emptyName _ => true
  | .fileMissingPath _ => true
  | .s3MissingBucketRegion _ => true
  | _ => false

/-- Spec error taxonomy (spec.md section 7): the `IOError` class —
local resource preparation failure. -/
def isIOError : NewError → Bool
  | .mkdirFailed _ _ _ => true
  | .absFailed _ _ => true
  | _ => false

/-- The replica name interpolated into the error message, when the
`fmt.Errorf` call site names one. -/
def errorReplicaName : NewError → Option String
  | .noReplicas => none
  | .emptyName _ => none
  | .fileMissingPath n => some n
  | .mkdirFailed n _ _ => some n
  | .absFailed n _ => some n
  | .s3MissingBucketRegion n => some n
  | .unsupportedType _ n => some n

/-- Events emitted during construction.  `ioMkdir` is the only I/O the
constructor performs (the `os.MkdirAll` attempt of the file branch);
`ctxCreated`/`ctxCancelled` track `context.WithCancel` and the
`cancel()` calls on the error paths.  `replicaStarted` is part of the
alphabet so that its absence is expressible: the constructor contains
no `replica.Start` call and therefore never emits it. -/
inductive CEvent where
  | ctxCreated
  | ctxCancelled
  | ioMkdir (replicaName path : String)
  | replicaStarted (name : String)
deriving Repr, DecidableEq

/-- One iteration of the `for _, rc := range cfg.Replicas` loop of
`NewLitestream` (src/unnamed/part_006, lines 877-931): the name check,
then the `switch rc.Type` with the file branch (FilePath check,
`os.MkdirAll` tolerating `os.IsExist`, `filepath.Abs`), the s3 branch
(bucket/region check, client assembly) and the default branch.
Returns the events performed plus the built replica or the error. -/
def buildReplica (fs : FS) (rc : ReplicaConfig) :
    List CEvent × Except NewError Replica :=
  if rc.Name = "" then
    ([], .error (.emptyName rc.rtype))
  else if rc.rtype = "file" then
    if rc.FilePath = "" then
      ([], .error (.fileMissingPath rc.Name))
    else
      match fs.mkdirAll rc.FilePath with
      | .errOther msg =>
          ([CEvent.ioMkdir rc.Name rc.FilePath],
           .error (.mkdirFailed rc.Name rc.FilePath msg))
      | _ =>
          match fs.abs rc.FilePath with
          | none =>
              ([CEvent.ioMkdir rc.Name rc.FilePath],
               .error (.absFailed rc.Name rc.FilePath))
          | some a =>
              ([CEvent.ioMkdir rc.Name rc.FilePath],
               .ok { name := rc.Name, client := .file a })
  else if rc.rtype = "s3" then
    if rc.S3Bucket = "" ∨ rc.S3Region = "" then
      ([], .error (.s3MissingBucketRegion rc.Name))
    else
      ([], .ok { name := rc.Name,
                 client := .s3 rc.S3Bucket rc.S3Path rc.S3Region rc.S3Endpoint
                   rc.S3AccessKeyID rc.S3SecretAccessKey rc.S3ForcePathStyle })
  else
    ([], .error (.unsupportedType rc.rtype rc.Name))

/-- The whole replica loop: specs are processed in declared order and
the loop returns at the first failing spec, exactly as the `return`
statements inside the Go loop do. -/
def buildReplicas (fs : FS) : List ReplicaConfig →
    List CEvent × Except NewError (List Replica)
  | [] => ([], .ok [])
  | rc :: rest =>
    match buildReplica fs rc with
    | (evs, .error e) => (evs, .error e)
    | (evs, .ok r) =>
      match buildReplicas fs rest with
      | (evs2, .error e) => (evs ++ evs2, .error e)
      | (evs2, .ok rs) => (evs ++ evs2, .ok (r :: rs))

/-- The constructed instance: `config`, the db handle (reduced to the
path it was created from) and the bound replica tasks.  Mirrors the
`Litestream` struct literal returned at src/unnamed/part_006, lines
933-940. -/
structure Litestream where
  config : Config
  dbPath : String
  replicas : List Replica
deriving Repr, DecidableEq

/-- Mirrors `NewLitestream(cfg Config, logger)` (src/unnamed/part_006,
lines 864-941): the zero-replica check precedes context creation; then
`context.WithCancel`, the replica loop, and either the error (after
`cancel()`) or the assembled instance.  The Go function returns
`(nil, err)` on failure and `(instance, nil)` on success, rendered as
`Except`.  The first component is the event trace in execution
order. -/
def NewLitestream (fs : FS) (cfg : Config) :
    List CEvent × Except NewError Litestream :=
  if cfg.Replicas.length = 0 then
    ([], .error .noReplicas)
  else
    match buildReplicas fs cfg.Replicas with
    | (evs, .error e) =>
        (CEvent.ctxCreated :: evs ++ [CEvent.ctxCancelled], .error e)
    | (evs, .ok rs) =>
        (CEvent.ctxCreated :: evs,
         .ok { config := cfg, dbPath := cfg.DBPath, replicas := rs })

/-- Whether an `Except` result is a success (Go: the returned error is
nil). -/
def exceptIsOk {ε α : Type} : Except ε α → Bool
  | .ok _ => true
  | .error _ => false

/-- A filesystem oracle on which every operation succeeds and path
resolution is the identity. -/
def idFS : FS := { mkdirAll := fun _ => .ok, abs := fun p => some p }

example : exceptIsOk (NewLitestream idFS
    { DBPath := "app.db",
      Replicas := [{ Name := "local", rtype := "file", FilePath := "r" }] }).2
    = true := by decide

example : (NewLitestream idFS { DBPath := "a", Replicas := [] }).2
    = .error .noReplicas := rfl

/-- A replica task as seen by `Start()` (src/unnamed/part_006, lines
953-1010): its name plus an oracle saying whether its
`replica.Start(l.ctx)` call succeeds. -/
structure TaskSpec where
  name : String
  startOk : Bool
deriving Repr, DecidableEq

/-- Events of the `Start` supervisor goroutine of the constructor-based
variant.  `stopAttempt` events are the per-replica stop attempts that
`l.db.Close()` issues to every replica bound in `db.Replicas`;
`signalErr`/`signalOk` are the sends on `startupComplete` whose value
`Start()` returns to the synchronous caller. -/
inductive SEvent where
  | startAttempt (i : Nat) (name : String)
  | signalErr (i : Nat) (name : String)
  | signalOk
  | cancelCtx
  | ctxDone
  | stopAttempt (name : String)
  | closeDB
  | fireShutdownDone
deriving Repr, DecidableEq

/-- The start attempts the loop performs for a (prefix of the) task
list, with `i` the index of the first one. -/
def attemptEvents : Nat → List TaskSpec → List SEvent
  | _, [] => []
  | i, t :: rest => SEvent.startAttempt i t.name :: attemptEvents (i + 1) rest

/-- The `for _, replica := range l.db.Replicas` loop of the supervisor
(src/unnamed/part_006, lines 980-991): tasks are attempted in declared
order, one at a time, and the loop `break`s at the first failure.
Returns the attempt events and the first failure (index and name), if
any. -/
def startLoop : Nat → List TaskSpec → List SEvent × Option (Nat × String)
  | _, [] => ([], none)
  | i, t :: rest =>
    if t.startOk then
      let r := startLoop (i + 1) rest
      (SEvent.startAttempt i t.name :: r.1, r.2)
    else
      ([SEvent.startAttempt i t.name], some (i, t.name))

/-- The stop attempts issued by `l.db.Close()`: one per replica bound
in `db.Replicas` (all configured replicas were bound during
construction). -/
def stopAllEvents (tasks : List TaskSpec) : List SEvent :=
  tasks.map (fun t => SEvent.stopAttempt t.name)

/-- Run of the supervisor goroutine launched by `Start()`
(src/unnamed/part_006, lines 965-1006), after `l.db.Open()` succeeded,
to its termination.  On a start failure: send the error, `l.cancel()`,
return; the deferred `l.db.Close()` then stops the bound replicas and
the deferred `close(l.shutdownDone)` runs last.  On success: send nil,
block until cancellation (`ctxDone`), then the same deferred teardown.
The second component is the value `Start()` receives from
`startupComplete` and returns (the index and name of the failing task,
or none). -/
def runStartSupervisor (tasks : List TaskSpec) :
    List SEvent × Option (Nat × String) :=
  match startLoop 0 tasks with
  | (evs, some (k, n)) =>
      (evs ++ [SEvent.signalErr k n, SEvent.cancelCtx] ++ stopAllEvents tasks ++
        [SEvent.closeDB, SEvent.fireShutdownDone], some (k, n))
  | (evs, none) =>
      (evs ++ [SEvent.signalOk, SEvent.ctxDone] ++ stopAllEvents tasks ++
        [SEvent.closeDB, SEvent.fireShutdownDone], none)

/-- Index of the first task whose start fails, in declaration order. -/
def firstFailIdx : List TaskSpec → Option Nat
  | [] => none
  | t :: rest =>
    if t.startOk then (firstFailIdx rest).map (fun n => n + 1) else some 0

/-- Events of the store-based supervisor goroutine of
`src/litestream.go` `Start()` (lines 142-195).  `monitorAttempt` is a
`setup.NewDirectoryMonitor` call; `closeMonitor`/`closeStore` are the
deferred teardown; `fireShutdownDone` is the deferred
`close(l.shutdownDone)` registered first and hence run last. -/
inductive GEvent where
  | openAttempt
  | monitorAttempt (i : Nat)
  | cancelCtx
  | signalErr
  | signalOk
  | ctxDone
  | closeMonitor (i : Nat)
  | closeStore
  | fireShutdownDone
deriving Repr, DecidableEq

/-- The directory-monitor loop of `src/litestream.go` lines 172-183:
monitors are started in order; on the first failure the loop exits
with that index (monitors `0..k-1` were appended to
`l.directoryMonitors`). -/
def monitorLoop : Nat → List Bool → List GEvent × Option Nat
  | _, [] => ([], none)
  | i, ok :: rest =>
    if ok then
      let r := monitorLoop (i + 1) rest
      (GEvent.monitorAttempt i :: r.1, r.2)
    else
      ([GEvent.monitorAttempt i], some i)

/-- The deferred teardown of the supervisor (src/litestream.go lines
146-161): close the started monitors in append order, then close the
store, then — as the deferred action registered first — fire the
shutdown-complete signal. -/
def teardownEvents (started : Nat) : List GEvent :=
  (List.range started).map GEvent.closeMonitor ++
    [GEvent.closeStore, GEvent.fireShutdownDone]

/-- Full run of the supervisor goroutine of `src/litestream.go`
`Start()` to its termination, for each of its three exit paths:
`store.Open` failure, first monitor-start failure (with `l.cancel()`
before the error send), or success followed by external
cancellation. -/
def runStoreSupervisor (openOk : Bool) (monitors : List Bool) : List GEvent :=
  if openOk then
    match monitorLoop 0 monitors with
    | (evs, some k) =>
        GEvent.openAttempt ::
          (evs ++ [GEvent.cancelCtx, GEvent.signalErr] ++ teardownEvents k)
    | (evs, none) =>
        GEvent.openAttempt ::
          (evs ++ [GEvent.signalOk, GEvent.ctxDone] ++
            teardownEvents monitors.length)
  else
    [GEvent.openAttempt, GEvent.signalErr] ++ teardownEvents 0

/-- Number of shutdown-complete signals in a trace. -/
def fireCount : List GEvent → Nat
  | [] => 0
  | GEvent.fireShutdownDone :: rest => fireCount rest + 1
  | _ :: rest => fireCount rest

/-- The lifecycle state `Stop` interacts with: whether `l.cancel()`
has been called and whether the supervisor has already fired
`l.shutdownDone` (a closed channel stays closed). -/
structure LifecycleState where
  cancelled : Bool
  teardownDone : Bool
deriving Repr, DecidableEq

/-- Which arm of the `select` in `Stop` fires. -/
inductive StopOutcome where
  | graceful
  | timedOut
deriving Repr, DecidableEq

/-- The error `Stop` returns on the `ctx.Done()` arm (`ctx.Err()`). -/
inductive StopErr where
  | timeout
deriving Repr, DecidableEq

/-- Semantics of `select { case <-l.shutdownDone: ...; case <-ctx.Done(): ... }`:
if exactly one signal is available or arrives first, that arm is taken;
when both are (or become) ready, Go chooses nondeterministically,
modelled by the `race` oracle.  `race` also decides which of the two
signals arrives first when neither is ready yet. -/
def selectOutcome (teardownDone ctxExpired : Bool) (race : StopOutcome) :
    StopOutcome :=
  match teardownDone, ctxExpired with
  | true, false => .graceful
  | false, true => .timedOut
  | _, _ => race

/-- Mirrors `Stop(ctx)` (src/unnamed/part_006 lines 1014-1026 and
src/litestream.go lines 199-211): call `l.cancel()` — its only state
effect — then select between the shutdown-complete signal (return
nil) and the deadline (return `ctx.Err()`).  `ctxExpired` says whether
`ctx`'s deadline elapses before the shutdown signal. -/
def Stop (s : LifecycleState) (ctxExpired : Bool) (race : StopOutcome) :
    Option StopErr × LifecycleState :=
  let s2 : LifecycleState := { s with cancelled := true }
  match selectOutcome s2.teardownDone ctxExpired race with
  | .graceful => (none, s2)
  | .timedOut => (some .timeout, s2)

example : (runStartSupervisor [⟨"a", true⟩, ⟨"b", false⟩, ⟨"c", true⟩]).2
    = some (1, "b") := rfl

example : fireCount (runStoreSupervisor false []) = 1 := rfl

example : (Stop ⟨false, false⟩ true .graceful).1 = some .timeout := rfl

/-- The kind-specific required-field predicate of spec section 4.1,
read off the checks the code performs: a file spec needs `FilePath`, an
s3 spec needs `S3Bucket` and `S3Region`. -/
def missingRequiredField (rc : ReplicaConfig) : Bool :=
  if rc.rtype = "file" then
    if rc.FilePath = "" then true else false
  else if rc.rtype = "s3" then
    if rc.S3Bucket = "" ∨ rc.S3Region = "" then true else false
  else false

theorem buildReplica_events (fs : FS) (rc : ReplicaConfig) :
    (buildReplica fs rc).1 = [] ∨
      (buildReplica fs rc).1 = [CEvent.ioMkdir rc.Name rc.FilePath] := by
  unfold buildReplica
  by_cases h1 : rc.Name = ""
  · simp [h1]
  · by_cases h2 : rc.rtype = "file"
    · by_cases h3 : rc.FilePath = ""
      · simp [h1, h2, h3]
      · cases hm : fs.mkdirAll rc.FilePath <;>
          cases ha : fs.abs rc.FilePath <;> simp [h1, h2, h3, hm, ha]
    · by_cases h4 : rc.rtype = "s3"
      · by_cases h5 : rc.S3Bucket = "" ∨ rc.S3Region = "" <;>
          simp [h1, h2, h4, h5]
      · simp [h1, h2, h4]

theorem buildReplicas_events (fs : FS) (rcs : List ReplicaConfig) :
    ∀ e ∈ (buildReplicas fs rcs).1,
      ∃ rc ∈ rcs, e = CEvent.ioMkdir rc.Name rc.FilePath := by
  induction rcs with
  | nil => intro e he; simp [buildReplicas] at he
  | cons rc rest ih =>
    intro e he
    have hev := buildReplica_events fs rc
    simp only [buildReplicas] at he
    cases hbr : buildReplica fs rc with
    | mk evs res =>
      rw [hbr] at he hev
      simp only at hev
      cases res with
      | error e0 =>
        simp at he
        rcases hev with hev | hev
        · subst hev; simp at he
        · subst hev
          simp at he
          exact ⟨rc, List.mem_cons_self rc rest, he⟩
      | ok r =>
        cases hrest : buildReplicas fs rest with
        | mk evs2 res2 =>
          rw [hrest] at he
          have hin : e ∈ evs ++ evs2 := by
            cases res2 <;> simpa using he
          rcases List.mem_append.mp hin with hl | hr
          · rcases hev with hev | hev
            · subst hev; simp at hl
            · subst hev
              simp at hl
              exact ⟨rc, List.mem_cons_self rc rest, hl⟩
          · have := ih e (by rw [hrest]; exact hr)
            obtain ⟨rc2, hm, hEq⟩ := this
            exact ⟨rc2, List.mem_cons_of_mem rc hm, hEq⟩

theorem buildReplicas_ok (fs : FS) (rcs : List ReplicaConfig)
    (h : ∀ rc ∈ rcs, exceptIsOk (buildReplica fs rc).2 = true) :
    exceptIsOk (buildReplicas fs rcs).2 = true := by
  induction rcs with
  | nil => simp [buildReplicas, exceptIsOk]
  | cons rc rest ih =>
    have h1 := h rc (List.mem_cons_self rc rest)
    have h2 := ih (fun r hr => h r (List.mem_cons_of_mem rc hr))
    cases hbr : buildReplica fs rc with
    | mk evs res =>
      rw [hbr] at h1
      cases res with
      | error e0 => simp [exceptIsOk] at h1
      | ok r =>
        cases hrest : buildReplicas fs rest with
        | mk evs2 res2 =>
          rw [hrest] at h2
          cases res2 with
          | error e2 => simp [exceptIsOk] at h2
          | ok rs => simp [buildReplicas, hbr, hrest, exceptIsOk]

theorem buildReplicas_prefix_ok (fs : FS) (rest : List ReplicaConfig)
    (e : NewError) (he : (buildReplicas fs rest).2 = .error e)
    (pre : List ReplicaConfig)
    (h : ∀ rc ∈ pre, exceptIsOk (buildReplica fs rc).2 = true) :
    (buildReplicas fs (pre ++ rest)).2 = .error e ∧
    (buildReplicas fs (pre ++ rest)).1
      = (buildReplicas fs pre).1 ++ (buildReplicas fs rest).1 := by
  induction pre with
  | nil => exact ⟨he, by simp [buildReplicas]⟩
  | cons rc pre ih =>
    have h1 := h rc (List.mem_cons_self rc pre)
    obtain ⟨ih1, ih2⟩ := ih (fun r hr => h r (List.mem_cons_of_mem rc hr))
    cases hbr : buildReplica fs rc with
    | mk evs res =>
      rw [hbr] at h1
      cases res with
      | error e0 => simp [exceptIsOk] at h1
      | ok r =>
        cases hPR : buildReplicas fs (pre ++ rest) with
        | mk evsPR resPR =>
          rw [hPR] at ih1 ih2
          simp only [List.cons_append]
          cases resPR with
          | ok rs2 => simp at ih1
          | error e2 =>
            have he2 : e2 = e := by simpa using ih1
            subst he2
            cases hP : buildReplicas fs pre with
            | mk evsP resP =>
              rw [hP] at ih2
              simp only at ih2
              constructor
              · simp [buildReplicas, hbr, hPR]
              · have htr : (buildReplicas fs (rc :: (pre ++ rest))).1
                    = evs ++ evsPR := by
                  simp [buildReplicas, hbr, hPR]
                have htrP : (buildReplicas fs (rc :: pre)).1 = evs ++ evsP := by
                  cases resP <;> simp [buildReplicas, hbr, hP]
                rw [htr, htrP, ih2, List.append_assoc]

theorem buildReplica_missing (fs : FS) (rc : ReplicaConfig)
    (hname : rc.Name ≠ "") (hmiss : missingRequiredField rc = true) :
    ∃ e, buildReplica fs rc = ([], .error e) ∧ isValidationError e = true ∧
      errorReplicaName e = some rc.Name := by
  unfold missingRequiredField at hmiss
  by_cases h2 : rc.rtype = "file"
  · by_cases h3 : rc.FilePath = ""
    · exact ⟨.fileMissingPath rc.Name,
        by simp [buildReplica, hname, h2, h3], rfl, rfl⟩
    · simp [h2, h3] at hmiss
  · by_cases h4 : rc.rtype = "s3"
    · by_cases h5 : rc.S3Bucket = "" ∨ rc.S3Region = ""
      · exact ⟨.s3MissingBucketRegion rc.Name,
          by simp [buildReplica, hname, h2, h4, h5], rfl, rfl⟩
      · simp [h2, h4, h5] at hmiss
    · simp [h2, h4] at hmiss

/-- C5: for every Config with zero replicas, `NewLitestream` returns
the "no replicas configured" error — a ValidationError — and performs
no I/O at all: the event trace is empty (not even the lifecycle
context is created, since the check precedes `context.WithCancel`). -/
theorem c5_zero_replicas (fs : FS) (cfg : Config) (h : cfg.Replicas = []) :
    NewLitestream fs cfg = ([], .error .noReplicas) ∧
      isValidationError .noReplicas = true := by
  constructor
  · simp [NewLitestream, h]
  · rfl

theorem c5_witness :
    NewLitestream idFS { DBPath := "app.db", Replicas := [] }
        = ([], .error .noReplicas) ∧
      isValidationError .noReplicas = true :=
  c5_zero_replicas idFS { DBPath := "app.db", Replicas := [] } rfl

/-- C10: construction is atomic on failure: every error return of
`NewLitestream` carries no instance (the Go function returns `nil`),
has started no replica task (the trace contains no `replicaStarted`
event — the constructor has no `replica.Start` call), and whenever the
lifecycle context was created (every path past the zero-replica
check), `cancel()` ran before the error return: the trace ends with
`ctxCancelled`. -/
theorem c10_construction_atomic (fs : FS) (cfg : Config) (e : NewError)
    (h : (NewLitestream fs cfg).2 = .error e) :
    (∀ n, CEvent.replicaStarted n ∉ (NewLitestream fs cfg).1) ∧
    ((NewLitestream fs cfg).1 = [] ∨
      ∃ evs, (NewLitestream fs cfg).1
        = CEvent.ctxCreated :: evs ++ [CEvent.ctxCancelled]) := by
  by_cases hlen : cfg.Replicas.length = 0
  · simp [NewLitestream, hlen]
  · cases hbr : buildReplicas fs cfg.Replicas with
    | mk evs res =>
      cases res with
      | ok rs => simp [NewLitestream, hlen, hbr] at h
      | error e0 =>
        have hev := buildReplicas_events fs cfg.Replicas
        rw [hbr] at hev
        constructor
        · intro n hn
          simp [NewLitestream, hlen, hbr] at hn
          obtain ⟨rc, _, hEq⟩ := hev _ hn
          simp at hEq
        · right
          exact ⟨evs, by simp [NewLitestream, hlen, hbr]⟩

/-- Config used as failing input for C10 and counterexample input for
C9: non-empty replica list, empty DBPath, empty replica name. -/
def cfg9 : Config :=
  { DBPath := "", Replicas := [{ Name := "", rtype := "file" }] }

theorem c10_witness :
    (∀ n, CEvent.replicaStarted n ∉ (NewLitestream idFS cfg9).1) ∧
    ((NewLitestream idFS cfg9).1 = [] ∨
      ∃ evs, (NewLitestream idFS cfg9).1
        = CEvent.ctxCreated :: evs ++ [CEvent.ctxCancelled]) :=
  c10_construction_atomic idFS cfg9 (.emptyName "file") rfl

/-- Config with two individually valid s3 replica specs sharing the
name "local". -/
def dupCfg : Config :=
  { DBPath := "app.db",
    Replicas :=
      [ { Name := "local", rtype := "s3", S3Bucket := "b1", S3Region := "r1" },
        { Name := "local", rtype := "s3", S3Bucket := "b2", S3Region := "r2" } ] }

/-- C1 counterexample: `dupCfg` contains two replica specs sharing the
name "local", yet `NewLitestream` succeeds and constructs an instance
binding both replicas: no ValidationError is returned and something is
constructed, contrary to the claim. -/
theorem c1_counterexample :
    dupCfg.Replicas.map ReplicaConfig.Name = ["local", "local"] ∧
    (NewLitestream idFS dupCfg).2
      = .ok { config := dupCfg, dbPath := "app.db",
              replicas :=
                [ { name := "local",
                    client := .s3 "b1" "" "r1" "" "" "" false },
                  { name := "local",
                    client := .s3 "b2" "" "r2" "" "" "" false } ] } :=
  ⟨rfl, rfl⟩

/-- C1 (amended): construction performs no duplicate-name check: for
every Config whose specs each individually build (names non-empty,
kind-specific required fields present, filesystem preparation
succeeding), `NewLitestream` succeeds — regardless of whether names
collide. -/
theorem c1_no_duplicate_check (fs : FS) (cfg : Config)
    (hne : cfg.Replicas ≠ [])
    (h : ∀ rc ∈ cfg.Replicas, exceptIsOk (buildReplica fs rc).2 = true) :
    exceptIsOk (NewLitestream fs cfg).2 = true := by
  have hlen : ¬ cfg.Replicas.length = 0 := by simpa using hne
  have hok := buildReplicas_ok fs cfg.Replicas h
  cases hbr : buildReplicas fs cfg.Replicas with
  | mk evs res =>
    rw [hbr] at hok
    cases res with
    | error e0 => simp [exceptIsOk] at hok
    | ok rs => simp [NewLitestream, hlen, hbr, exceptIsOk]

theorem c1_witness :
    dupCfg.Replicas ≠ [] ∧
    exceptIsOk (NewLitestream idFS dupCfg).2 = true :=
  ⟨by decide, c1_no_duplicate_check idFS dupCfg (by decide) (by decide)⟩

/-- C9 counterexample: `cfg9` has a non-empty replica list and an
empty DBPath, yet construction fails (the empty replica name is
rejected), so the claim's "construction succeeds for every Config with
a non-empty replica list and an empty DBPath" is false. -/
theorem c9_counterexample :
    cfg9.DBPath = "" ∧ cfg9.Replicas.length ≠ 0 ∧
    (NewLitestream idFS cfg9).2 = .error (.emptyName "file") :=
  ⟨rfl, by decide, rfl⟩

/-- C9 (amended): `NewLitestream` performs no validation of the source
database path: the event trace and the outcome (the error, or the
constructed replica list) are invariant under any replacement of
DBPath — DBPath only becomes the stored path of the db handle. -/
theorem c9_dbpath_not_validated (fs : FS) (cfg : Config) (p1 p2 : String) :
    (NewLitestream fs { cfg with DBPath := p1 }).1
      = (NewLitestream fs { cfg with DBPath := p2 }).1 ∧
    Except.map Litestream.replicas
        (NewLitestream fs { cfg with DBPath := p1 }).2
      = Except.map Litestream.replicas
          (NewLitestream fs { cfg with DBPath := p2 }).2 := by
  by_cases hlen : cfg.Replicas.length = 0
  · constructor <;> simp [NewLitestream, hlen]
  · cases hbr : buildReplicas fs cfg.Replicas with
    | mk evs res =>
      cases res with
      | error e0 =>
        constructor <;> simp [NewLitestream, hlen, hbr, Except.map]
      | ok rs =>
        constructor <;> simp [NewLitestream, hlen, hbr, Except.map]

/-- The two replica specs of the C3 counterexample: a valid file spec
followed by an s3 spec missing its bucket. -/
def rcFile1 : ReplicaConfig :=
  { Name := "r1", rtype := "file", FilePath := "data" }

def rcS3NoBucket : ReplicaConfig :=
  { Name := "r2", rtype := "s3", S3Region := "us-east-1" }

def cfgC3 : Config :=
  { DBPath := "app.db", Replicas := [rcFile1, rcS3NoBucket] }

/-- C3 counterexample: in `cfgC3` the second spec is missing its s3
bucket; construction does fail with a ValidationError, but the
directory-creation I/O for the first (file) replica has already been
performed when that failure is detected — so "detected before any I/O
is performed" is false. -/
theorem c3_counterexample :
    (NewLitestream idFS cfgC3).2 = .error (.s3MissingBucketRegion "r2") ∧
    isValidationError (.s3MissingBucketRegion "r2") = true ∧
    CEvent.ioMkdir "r1" "data" ∈ (NewLitestream idFS cfgC3).1 := by
  refine ⟨rfl, rfl, ?_⟩
  decide

/-- C3 (amended): when the first failing spec is one missing a
kind-specific required field (all earlier specs build), construction
fails with a ValidationError naming that replica, and every I/O event
of the construction belongs to an earlier file spec — none to the
failing spec or the ones after it.  I/O for earlier file specs may
already have been performed. -/
theorem c3_missing_field (fs : FS) (d : String)
    (pre post : List ReplicaConfig) (rc : ReplicaConfig)
    (hpre : ∀ r ∈ pre, exceptIsOk (buildReplica fs r).2 = true)
    (hname : rc.Name ≠ "") (hmiss : missingRequiredField rc = true) :
    (∃ e, (NewLitestream fs { DBPath := d, Replicas := pre ++ rc :: post }).2
          = .error e ∧
        isValidationError e = true ∧ errorReplicaName e = some rc.Name) ∧
    (∀ n p, CEvent.ioMkdir n p
        ∈ (NewLitestream fs { DBPath := d, Replicas := pre ++ rc :: post }).1 →
      ∃ r ∈ pre, n = r.Name ∧ p = r.FilePath) := by
  obtain ⟨e, hbr, hval, hern⟩ := buildReplica_missing fs rc hname hmiss
  have hrest : buildReplicas fs (rc :: post) = ([], .error e) := by
    simp [buildReplicas, hbr]
  obtain ⟨hres, htr⟩ := buildReplicas_prefix_ok fs (rc :: post) e
    (by rw [hrest]) pre hpre
  have hlen : ¬ ((pre ++ rc :: post).length = 0) := by simp
  cases hP : buildReplicas fs (pre ++ rc :: post) with
  | mk evsP resP =>
    rw [hP] at hres htr
    simp only at hres htr
    subst hres
    constructor
    · exact ⟨e, by simp [NewLitestream, hlen, hP], hval, hern⟩
    · intro n p hn
      simp [NewLitestream, hlen, hP] at hn
      rw [htr, hrest] at hn
      simp at hn
      obtain ⟨r, hmem, hEq⟩ := buildReplicas_events fs pre _ hn
      simp at hEq
      exact ⟨r, hmem, hEq.1, hEq.2⟩

theorem c3_witness :
    (∃ e, (NewLitestream idFS cfgC3).2 = .error e ∧
        isValidationError e = true ∧ errorReplicaName e = some "r2") ∧
    (∀ n p, CEvent.ioMkdir n p ∈ (NewLitestream idFS cfgC3).1 →
      ∃ r ∈ [rcFile1], n = r.Name ∧ p = r.FilePath) :=
  c3_missing_field idFS "app.db" [rcFile1] [] rcS3NoBucket
    (by decide) (by decide) (by decide)

/-- Whether the outcome of `os.MkdirAll` is accepted by the source's
`err != nil && !os.IsExist(err)` guard: success, or an error for which
`os.IsExist` holds (the pre-existing-directory case). -/
def mkdirTolerated : MkdirResult → Bool
  | .errOther _ => false
  | _ => true

/-- C6: for every file-kind spec with a non-empty FilePath,
construction attempts the directory creation (tolerating a
pre-existing directory: any `mkdirTolerated` outcome proceeds),
resolves the path through `filepath.Abs` and binds the filesystem
client to the resolved absolute path; if the creation fails with a
non-tolerated error or the resolution fails, construction returns an
IOError carrying the replica's name. -/
theorem c6_file_factory (fs : FS) (rc : ReplicaConfig) (d : String)
    (htype : rc.rtype = "file") (hname : rc.Name ≠ "")
    (hpath : rc.FilePath ≠ "") :
    (∀ a, mkdirTolerated (fs.mkdirAll rc.FilePath) = true →
        fs.abs rc.FilePath = some a →
        (NewLitestream fs { DBPath := d, Replicas := [rc] }).2
          = .ok { config := { DBPath := d, Replicas := [rc] }, dbPath := d,
                  replicas := [{ name := rc.Name, client := .file a }] } ∧
        CEvent.ioMkdir rc.Name rc.FilePath
          ∈ (NewLitestream fs { DBPath := d, Replicas := [rc] }).1) ∧
    (∀ msg, fs.mkdirAll rc.FilePath = .errOther msg →
        (NewLitestream fs { DBPath := d, Replicas := [rc] }).2
          = .error (.mkdirFailed rc.Name rc.FilePath msg) ∧
        isIOError (.mkdirFailed rc.Name rc.FilePath msg) = true ∧
        errorReplicaName (.mkdirFailed rc.Name rc.FilePath msg)
          = some rc.Name) ∧
    (mkdirTolerated (fs.mkdirAll rc.FilePath) = true →
        fs.abs rc.FilePath = none →
        (NewLitestream fs { DBPath := d, Replicas := [rc] }).2
          = .error (.absFailed rc.Name rc.FilePath) ∧
        isIOError (.absFailed rc.Name rc.FilePath) = true ∧
        errorReplicaName (.absFailed rc.Name rc.FilePath) = some rc.Name) := by
  refine ⟨?_, ?_, ?_⟩
  · intro a hm ha
    have hbr : buildReplica fs rc = ([CEvent.ioMkdir rc.Name rc.FilePath],
        .ok { name := rc.Name, client := .file a }) := by
      unfold buildReplica
      cases hmk : fs.mkdirAll rc.FilePath with
      | errOther msg => rw [hmk] at hm; simp [mkdirTolerated] at hm
      | ok => simp [hname, htype, hpath, hmk, ha]
      | errExist => simp [hname, htype, hpath, hmk, ha]
    constructor
    · simp [NewLitestream, buildReplicas, hbr]
    · simp [NewLitestream, buildReplicas, hbr]
  · intro msg hmk
    have hbr : buildReplica fs rc = ([CEvent.ioMkdir rc.Name rc.FilePath],
        .error (.mkdirFailed rc.Name rc.FilePath msg)) := by
      unfold buildReplica
      simp [hname, htype, hpath, hmk]
    exact ⟨by simp [NewLitestream, buildReplicas, hbr], rfl, rfl⟩
  · intro hm ha
    have hbr : buildReplica fs rc = ([CEvent.ioMkdir rc.Name rc.FilePath],
        .error (.absFailed rc.Name rc.FilePath)) := by
      unfold buildReplica
      cases hmk : fs.mkdirAll rc.FilePath with
      | errOther msg => rw [hmk] at hm; simp [mkdirTolerated] at hm
      | ok => simp [hname, htype, hpath, hmk, ha]
      | errExist => simp [hname, htype, hpath, hmk, ha]
    exact ⟨by simp [NewLitestream, buildReplicas, hbr], rfl, rfl⟩

/-- Filesystem oracle on which the replica directory already exists
(`os.MkdirAll` yields an `os.IsExist` error) and resolution prefixes
the working directory. -/
def fsW : FS :=
  { mkdirAll := fun _ => .errExist, abs := fun p => some ("/abs/" ++ p) }

def rcW : ReplicaConfig :=
  { Name := "local", rtype := "file", FilePath := "backups" }

theorem c6_witness :
    (NewLitestream fsW { DBPath := "app.db", Replicas := [rcW] }).2
      = .ok { config := { DBPath := "app.db", Replicas := [rcW] },
              dbPath := "app.db",
              replicas :=
                [{ name := "local", client := .file "/abs/backups" }] } ∧
    CEvent.ioMkdir "local" "backups"
      ∈ (NewLitestream fsW { DBPath := "app.db", Replicas := [rcW] }).1 :=
  (c6_file_factory fsW rcW "app.db" rfl (by decide) (by decide)).1
    "/abs/backups" rfl rfl

theorem attemptEvents_mem (j : Nat) (n : String) :
    ∀ (l : List TaskSpec) (i : Nat),
      SEvent.startAttempt j n ∈ attemptEvents i l → i ≤ j ∧ j < i + l.length := by
  intro l
  induction l with
  | nil => intro i h; simp [attemptEvents] at h
  | cons t rest ih =>
    intro i h
    simp only [attemptEvents, List.mem_cons] at h
    rcases h with h | h
    · simp only [SEvent.startAttempt.injEq] at h
      obtain ⟨h1, h2⟩ := h
      subst h1
      simp only [List.length_cons]
      omega
    · have := ih (i + 1) h
      simp only [List.length_cons]
      omega

theorem get?_mem_task :
    ∀ (l : List TaskSpec) (n : Nat) (a : TaskSpec), l.get? n = some a → a ∈ l := by
  intro l
  induction l with
  | nil => intro n a h; simp [List.get?] at h
  | cons t rest ih =>
    intro n a h
    cases n with
    | zero =>
      have : t = a := by simpa using h
      rw [this]; exact List.mem_cons_self a rest
    | succ m => exact List.mem_cons_of_mem t (ih m a h)

theorem startLoop_spec :
    ∀ (tasks : List TaskSpec) (k : Nat) (tk : TaskSpec),
      firstFailIdx tasks = some k → tasks.get? k = some tk →
      ∀ i, startLoop i tasks
        = (attemptEvents i (tasks.take (k + 1)), some (i + k, tk.name)) := by
  intro tasks
  induction tasks with
  | nil => intro k tk hfail; simp [firstFailIdx] at hfail
  | cons t rest ih =>
    intro k tk hfail hget i
    cases hok : t.startOk with
    | false =>
      simp only [firstFailIdx, hok] at hfail
      simp at hfail
      subst hfail
      have htk : t = tk := by simpa using hget
      subst htk
      simp [startLoop, hok, attemptEvents, List.take_succ_cons]
    | true =>
      simp only [firstFailIdx, hok, if_true] at hfail
      rcases hmap : firstFailIdx rest with _ | k1
      · rw [hmap] at hfail; simp at hfail
      · rw [hmap] at hfail
        simp at hfail
        subst hfail
        have hget2 : rest.get? k1 = some tk := hget
        have hrec := ih k1 tk hmap hget2 (i + 1)
        have harith : i + (k1 + 1) = (i + 1) + k1 := by omega
        simp [startLoop, hok, hrec, attemptEvents, List.take_succ_cons, harith]

/-- C2: given tasks whose first start failure is at index k, the
supervisor of `Start()` attempts exactly tasks 0..k in declared order
(the full trace shape), never attempts a task after k, signals the
k-th task's error to the synchronous caller as `Start()`'s return
value, cancels the lifecycle context, and issues a stop attempt (via
the deferred `db.Close()`) to every task that was already started. -/
theorem c2_failfast (tasks : List TaskSpec) (k : Nat) (tk : TaskSpec)
    (hfail : firstFailIdx tasks = some k) (hget : tasks.get? k = some tk) :
    (runStartSupervisor tasks).1
      = attemptEvents 0 (tasks.take (k + 1))
        ++ [SEvent.signalErr k tk.name, SEvent.cancelCtx]
        ++ stopAllEvents tasks ++ [SEvent.closeDB, SEvent.fireShutdownDone] ∧
    (runStartSupervisor tasks).2 = some (k, tk.name) ∧
    (∀ i n, SEvent.startAttempt i n ∈ (runStartSupervisor tasks).1 → i ≤ k) ∧
    (∀ j tj, j < k → tasks.get? j = some tj →
      SEvent.stopAttempt tj.name ∈ (runStartSupervisor tasks).1) := by
  have hsl := startLoop_spec tasks k tk hfail hget 0
  have hrun : runStartSupervisor tasks
      = (attemptEvents 0 (tasks.take (k + 1))
          ++ [SEvent.signalErr k tk.name, SEvent.cancelCtx]
          ++ stopAllEvents tasks ++ [SEvent.closeDB, SEvent.fireShutdownDone],
         some (k, tk.name)) := by
    unfold runStartSupervisor
    rw [hsl]
    simp
  refine ⟨by rw [hrun], by rw [hrun], ?_, ?_⟩
  · intro i n hmem
    rw [hrun] at hmem
    rcases List.mem_append.mp hmem with h | h
    · rcases List.mem_append.mp h with h | h
      · rcases List.mem_append.mp h with h | h
        · have hb := attemptEvents_mem i n (tasks.take (k + 1)) 0 h
          have hlen : (tasks.take (k + 1)).length ≤ k + 1 :=
            List.length_take_le _ _
          omega
        · simp at h
      · simp [stopAllEvents] at h
    · simp at h
  · intro j tj hjk hgetj
    rw [hrun]
    have htj : tj ∈ tasks := get?_mem_task tasks j tj hgetj
    have hstop : SEvent.stopAttempt tj.name ∈ stopAllEvents tasks :=
      List.mem_map_of_mem _ htj
    refine List.mem_append.mpr (Or.inl ?_)
    exact List.mem_append.mpr (Or.inr hstop)

def tasksW : List TaskSpec := [⟨"a", true⟩, ⟨"b", false⟩, ⟨"c", true⟩]

theorem c2_witness :
    firstFailIdx tasksW = some 1 ∧
    (runStartSupervisor tasksW).2 = some (1, "b") ∧
    (runStartSupervisor tasksW).1
      = attemptEvents 0 (tasksW.take 2)
        ++ [SEvent.signalErr 1 "b", SEvent.cancelCtx]
        ++ stopAllEvents tasksW ++ [SEvent.closeDB, SEvent.fireShutdownDone] := by
  have h := c2_failfast tasksW 1 ⟨"b", false⟩ (by decide) (by decide)
  exact ⟨by decide, h.2.1, h.1⟩

theorem fireCount_append (a b : List GEvent) :
    fireCount (a ++ b) = fireCount a + fireCount b := by
  induction a with
  | nil => simp [fireCount]
  | cons e rest ih =>
    cases e <;> simp [fireCount, ih]
    omega

theorem monitorLoop_fireCount :
    ∀ (ms : List Bool) (i : Nat), fireCount (monitorLoop i ms).1 = 0 := by
  intro ms
  induction ms with
  | nil => intro i; simp [monitorLoop, fireCount]
  | cons ok rest ih =>
    intro i
    cases ok <;> simp [monitorLoop, fireCount, ih]

theorem teardown_fireCount (n : Nat) : fireCount (teardownEvents n) = 1 := by
  unfold teardownEvents
  rw [fireCount_append]
  have h : fireCount ((List.range n).map GEvent.closeMonitor) = 0 := by
    induction n with
    | zero => simp [fireCount]
    | succ m ih =>
      rw [List.range_succ, List.map_append, fireCount_append, ih]
      simp [fireCount]
  rw [h]
  simp [fireCount]

/-- C8: on every exit path of the store supervisor goroutine (open
failure, monitor/task-start failure, external cancellation after
success), the shutdown-complete signal is fired exactly once, and the
trace always ends with the source-handle close attempt immediately
followed by the shutdown-complete signal as its final action. -/
theorem c8_shutdown_signal (openOk : Bool) (monitors : List Bool) :
    fireCount (runStoreSupervisor openOk monitors) = 1 ∧
    ∃ pre, runStoreSupervisor openOk monitors
      = pre ++ [GEvent.closeStore, GEvent.fireShutdownDone] := by
  cases openOk with
  | false =>
    constructor
    · simp [runStoreSupervisor, teardownEvents, fireCount_append, fireCount]
    · exact ⟨[GEvent.openAttempt, GEvent.signalErr],
        by simp [runStoreSupervisor, teardownEvents]⟩
  | true =>
    cases hml : monitorLoop 0 monitors with
    | mk evs r =>
      have h0 := monitorLoop_fireCount monitors 0
      rw [hml] at h0
      simp only at h0
      cases r with
      | some k =>
        constructor
        · simp [runStoreSupervisor, hml, teardownEvents, fireCount_append,
            fireCount, h0]
          have : fireCount ((List.range k).map GEvent.closeMonitor) = 0 := by
            have := teardown_fireCount k
            unfold teardownEvents at this
            rw [fireCount_append] at this
            simp [fireCount] at this
            omega
          omega
        · refine ⟨GEvent.openAttempt ::
            (evs ++ [GEvent.cancelCtx, GEvent.signalErr]
              ++ (List.range k).map GEvent.closeMonitor), ?_⟩
          simp [runStoreSupervisor, hml, teardownEvents]
      | none =>
        constructor
        · simp [runStoreSupervisor, hml, teardownEvents, fireCount_append,
            fireCount, h0]
          have : fireCount ((List.range monitors.length).map GEvent.closeMonitor)
              = 0 := by
            have := teardown_fireCount monitors.length
            unfold teardownEvents at this
            rw [fireCount_append] at this
            simp [fireCount] at this
            omega
          omega
        · refine ⟨GEvent.openAttempt ::
            (evs ++ [GEvent.signalOk, GEvent.ctxDone]
              ++ (List.range monitors.length).map GEvent.closeMonitor), ?_⟩
          simp [runStoreSupervisor, hml, teardownEvents]

/-- C4: `Stop(ctx)` triggers lifecycle cancellation (its only state
effect — the background teardown progress is untouched and continues
independently), returns nil when the shutdown-complete signal is
observed before the deadline, and returns the context's timeout error
when the deadline elapses first. -/
theorem c4_stop_semantics (s : LifecycleState) (e : Bool) (r : StopOutcome) :
    (Stop s e r).2 = { s with cancelled := true } ∧
    (Stop s e r).2.teardownDone = s.teardownDone ∧
    (selectOutcome s.teardownDone e r = .graceful → (Stop s e r).1 = none) ∧
    (selectOutcome s.teardownDone e r = .timedOut →
      (Stop s e r).1 = some .timeout) := by
  unfold Stop
  cases h : selectOutcome s.teardownDone e r <;> simp [h]

theorem c4_witness :
    (Stop ⟨false, true⟩ false .graceful).1 = none ∧
    (Stop ⟨false, false⟩ true .graceful).1 = some .timeout ∧
    (Stop ⟨false, false⟩ true .graceful).2 = ⟨true, false⟩ :=
  ⟨(c4_stop_semantics ⟨false, true⟩ false .graceful).2.2.1 rfl,
   (c4_stop_semantics ⟨false, false⟩ true .graceful).2.2.2 rfl,
   (c4_stop_semantics ⟨false, false⟩ true .graceful).1⟩

/-- C7: `Stop` is idempotent: a first `Stop` under an expired deadline
while teardown is unfinished returns the timeout error; once the
background teardown has fired the shutdown signal, a second sequential
`Stop` with a not-yet-expired deadline observes that same signal and
returns nil, still with the context cancelled; and repeating `Stop`
leaves the lifecycle state fixed (cancellation twice is a no-op). -/
theorem c7_stop_idempotent (s : LifecycleState) (r1 r2 : StopOutcome)
    (h : s.teardownDone = false) :
    (Stop s true r1).1 = some .timeout ∧
    (Stop { (Stop s true r1).2 with teardownDone := true } false r2).1
      = none ∧
    (Stop { (Stop s true r1).2 with teardownDone := true } false r2).2.cancelled
      = true ∧
    (Stop (Stop s true r1).2 true r1).2 = (Stop s true r1).2 := by
  unfold Stop
  simp [selectOutcome, h]

theorem c7_witness :
    (Stop ⟨false, false⟩ true .graceful).1 = some .timeout ∧
    (Stop { (Stop ⟨false, false⟩ true .graceful).2 with teardownDone := true }
        false .timedOut).1 = none ∧
    (Stop { (Stop ⟨false, false⟩ true .graceful).2 with teardownDone := true }
        false .timedOut).2.cancelled = true ∧
    (Stop (Stop ⟨false, false⟩ true .graceful).2 true .graceful).2
      = (Stop ⟨false, false⟩ true .graceful).2 :=
  c7_stop_idempotent ⟨false, false⟩ .graceful .timedOut rfl

end LS
